import Mathlib

/-!
Shallow embedding of `src/taxadb/app.py` (the taxadb download/create tool).

The embedding models the parse-merge-load pipeline:
  * `_parse_taxdump` — parsing `nodes.dmp` / `names.dmp`, the positional
    merge `{**nodes, **names}`, and the batched insert into table `Taxa`;
  * `_parse_accession2taxid` — the streaming accession parser and the
    per-record insert into table `Sequence`.

Files are modelled as lists of their (already decompressed, already decoded)
lines; Python strings become `String`, Python dict records become structures
whose fields carry the dict keys. Python exceptions (IndexError on a short
line, storage errors) become `Except String`.
-/

namespace Taxadb

/-- Auxiliary worker for `splitChar`: scans the characters, cutting at every
occurrence of the separator. -/
def splitOnCharAux (sep : Char) : List Char → List Char → List (List Char)
  | [], acc => [acc.reverse]
  | c :: rest, acc =>
      if c = sep then acc.reverse :: splitOnCharAux sep rest []
      else splitOnCharAux sep rest (c :: acc)

/-- Python `s.split(sep)` for a one-character separator `sep` (the source only
splits on the one-character separators `'|'` and `'\t'`): `"" ↦ [""]`,
`"a|b" ↦ ["a","b"]`, `"a|" ↦ ["a",""]`. -/
def splitChar (sep : Char) (s : String) : List String :=
  (splitOnCharAux sep s.toList []).map String.mk

/-- Python `s.strip(c)` for a single character `c`: removes every leading and
trailing occurrence of `c`. -/
def stripChar (c : Char) (s : String) : String :=
  String.mk (((s.toList.dropWhile (fun a => a = c)).reverse.dropWhile
    (fun a => a = c)).reverse)

/-- Python `s.rstrip(c)` for a single character `c`: removes every trailing
occurrence of `c`. -/
def rstripChar (c : Char) (s : String) : String :=
  String.mk ((s.toList.reverse.dropWhile (fun a => a = c)).reverse)

/-- The node record built for each line of `nodes.dmp`: the dict
`{ncbi_taxid, parent_taxid, tax_name, lineage_level}` of `_parse_taxdump`. -/
structure NodeRec where
  ncbi_taxid : String
  parent_taxid : String
  tax_name : String
  lineage_level : String
deriving Repr, DecidableEq

/-- The name record built for each retained line of `names.dmp`: the dict
`{ncbi_taxid, tax_name}` of `_parse_taxdump`. -/
structure NameRec where
  ncbi_taxid : String
  tax_name : String
deriving Repr, DecidableEq

/-- A merged taxon record, as inserted into the `Taxa` table: has exactly the
union of the node-dict and name-dict keys. -/
structure TaxaRec where
  ncbi_taxid : String
  parent_taxid : String
  tax_name : String
  lineage_level : String
deriving Repr, DecidableEq

/-- An accession record, as inserted into the `Sequence` table: the dict
`{accession, taxid}` of `_parse_accession2taxid`. -/
structure AccRec where
  accession : String
  taxid : String
deriving Repr, DecidableEq

/-- The relational store: the rows of the `Taxa` table and of the `Sequence`
table, in insertion order (the auto-increment surrogate primary key of each
table is its row position and is not modelled separately). -/
structure Store where
  taxa : List TaxaRec
  sequences : List AccRec
deriving Repr, DecidableEq

def emptyStore : Store := { taxa := [], sequences := [] }

/-- One line of `nodes.dmp`:
`line_list = line.split('|')` and then
`{'ncbi_taxid': line_list[0].strip('\t'), 'parent_taxid': line_list[1].strip('\t'),
  'tax_name': '', 'lineage_level': line_list[2].strip('\t')}`.
A line with fewer than three pipe-delimited fields raises IndexError. -/
def nodeFields : List String → Except String NodeRec
  | l0 :: l1 :: l2 :: _ =>
      .ok { ncbi_taxid := stripChar '\t' l0
            parent_taxid := stripChar '\t' l1
            tax_name := ""
            lineage_level := stripChar '\t' l2 }
  | _ => .error "IndexError: nodes.dmp line has fewer than 3 fields"

/-- One line of `nodes.dmp`: split on the pipes, then extract the indexed
fields. -/
def parseNodeLine (line : String) : Except String NodeRec :=
  nodeFields (splitChar '|' line)

/-- The accumulation loop shared by the two dump parsers: build one record
per input element in order, propagating the first raised exception. -/
def mapExcept (f : α → Except String β) : List α → Except String (List β)
  | [] => .ok []
  | x :: xs => do
      let y ← f x
      let ys ← mapExcept f xs
      pure (y :: ys)

/-- The `nodes.dmp` loop of `_parse_taxdump`: builds `nodes_data`, one record
per line, stopping at the first malformed line. -/
def parseNodes (lines : List String) : Except String (List NodeRec) :=
  mapExcept parseNodeLine lines

/-- Contiguous-sublist test, mirroring Python substring containment: `needle`
occurs somewhere in `hay`. -/
def containsSub (needle : List Char) : List Char → Bool
  | [] => needle.isEmpty
  | c :: rest => needle.isPrefixOf (c :: rest) || containsSub needle rest

/-- Python `'scientific name' in line`. -/
def isScientificName (line : String) : Bool :=
  containsSub "scientific name".toList line.toList

/-- One retained line of `names.dmp`:
`{'ncbi_taxid': line_list[0].strip('\t'), 'tax_name': line_list[1].strip('\t')}`.
A retained line with fewer than two pipe-delimited fields raises IndexError. -/
def parseNameLine (line : String) : Except String NameRec :=
  match splitChar '|' line with
  | l0 :: l1 :: _ =>
      .ok { ncbi_taxid := stripChar '\t' l0, tax_name := stripChar '\t' l1 }
  | _ => .error "IndexError: names.dmp line has fewer than 2 fields"

/-- The `names.dmp` loop of `_parse_taxdump`: only lines containing
`'scientific name'` are processed, in file order. -/
def parseNames (lines : List String) : Except String (List NameRec) :=
  mapExcept parseNameLine (lines.filter isScientificName)

/-- The merge `taxa_info = {**nodes, **names}` (PEP 448): the keys of the
name dict — `ncbi_taxid` and `tax_name`, unpacked second — overwrite the
same-named keys of the node dict, so `ncbi_taxid` and `tax_name` come from
the name record and `parent_taxid` and `lineage_level` from the node record. -/
def mergeTaxa (nodes : NodeRec) (names : NameRec) : TaxaRec :=
  { ncbi_taxid := names.ncbi_taxid
    parent_taxid := nodes.parent_taxid
    tax_name := names.tax_name
    lineage_level := nodes.lineage_level }

/-- The merge loop `for nodes, names in zip(nodes_data, names_data)`: a
positional zip of the two record sequences. -/
def mergeLists (nodes : List NodeRec) (names : List NameRec) : List TaxaRec :=
  List.zipWith mergeTaxa nodes names

/-- The record-level part of `_parse_taxdump`: parse both files and merge the
resulting sequences into `taxa_info_list`. -/
def parseTaxdumpRecords (nodeLines nameLines : List String) :
    Except String (List TaxaRec) := do
  let nodes ← parseNodes nodeLines
  let names ← parseNames nameLines
  pure (mergeLists nodes names)

/-- The declared constraints of a peewee field. -/
structure FieldAttrs where
  nullAllowed : Bool
  unique : Bool
deriving Repr, DecidableEq

/-- The field `Taxa.ncbi_taxid` is declared `pw.IntegerField(null=False)`:
not nullable and — peewee's default — with NO unique constraint (the model
declares no `unique=True` and no `UNIQUE` index on `ncbi_taxid`; only the
auto-increment surrogate `primary` is a key). -/
def ncbiTaxidAttrs : FieldAttrs := { nullAllowed := false, unique := false }

/-- `Taxa.insert_many(batch).execute()`: appends the batch to the `Taxa`
table. The store rejects the batch with an IntegrityError exactly when a
declared uniqueness constraint on `ncbi_taxid` would be violated; with the
schema as declared (`ncbiTaxidAttrs.unique = false`) no check is made. -/
def insertManyTaxa (store : Store) (batch : List TaxaRec) :
    Except String Store :=
  let newRows := store.taxa ++ batch
  if ncbiTaxidAttrs.unique &&
      !(decide (newRows.map (fun r => r.ncbi_taxid)).Nodup) then
    .error "IntegrityError: duplicate ncbi_taxid"
  else
    .ok { store with taxa := newRows }

set_option linter.unusedVariables false in
/-- The batch slicing `taxa_info_list[i:i+500]` for
`i in range(0, len(taxa_info_list), 500)`: the successive 500-element slices
of the list (the last one shorter when 500 does not divide the length). -/
def taxaSlices (l : List TaxaRec) : List (List TaxaRec) :=
  if h : l = [] then []
  else l.take 500 :: taxaSlices (l.drop 500)
termination_by l.length
decreasing_by
  have hp : 0 < l.length := List.length_pos.mpr h
  simp only [List.length_drop]
  omega

/-- The insert loop of `_parse_taxdump` inside `with db.atomic()`:
`for i in range(0, len(taxa_info_list), 500): Taxa.insert_many(...)`. -/
def loadTaxa (store : Store) (l : List TaxaRec) : Except String Store :=
  (taxaSlices l).foldlM insertManyTaxa store

/-- The whole of `_parse_taxdump`: parse `nodes.dmp` and `names.dmp`, merge,
then insert the merged records into the `Taxa` table. Any parse error (raised
IndexError) propagates before the insert transaction opens. -/
def parseTaxdump (store : Store) (nodeLines nameLines : List String) :
    Except String Store := do
  let recs ← parseTaxdumpRecords nodeLines nameLines
  loadTaxa store recs

/-- One post-header line of an accession2taxid file:
`line_list = line.decode().rstrip('\n').split('\t')` and then
`{'accession': line_list[0], 'taxid': line_list[2]}`. A line with fewer than
three tab-separated columns raises IndexError. -/
def accFields : List String → Except String AccRec
  | c0 :: _ :: c2 :: _ => .ok { accession := c0, taxid := c2 }
  | _ => .error "IndexError: accession line has fewer than 3 columns"

/-- One post-header accession line: strip the trailing newline, split on the
tabs, then extract columns 0 and 2. -/
def parseAccLine (line : String) : Except String AccRec :=
  accFields (splitChar '\t' (rstripChar '\n' line))

/-- `Sequence.create(**data_dict)`: appends one row to the `Sequence` table. -/
def insertAcc (store : Store) (r : AccRec) : Store :=
  { store with sequences := store.sequences ++ [r] }

/-- The `for line in f` loop of `_parse_accession2taxid`: parse each data
line and insert it, stopping at the first raised exception. -/
def accLoop (store : Store) : List String → Except String Store
  | [] => .ok store
  | line :: rest => do
      let r ← parseAccLine line
      accLoop (insertAcc store r) rest

/-- The whole of `_parse_accession2taxid`, over the decompressed lines of the
gzip input (gzip decompression is the collaborator's): `f.readline()`
discards the first line when there is one (on an empty file it returns the
empty byte string and no loop iteration runs), then each remaining line
becomes one `Sequence` row. The whole call runs inside `with db.atomic()`. -/
def loadAccessions (store : Store) (file : List String) : Except String Store :=
  match file with
  | [] => .ok store
  | _ :: dataLines => accLoop store dataLines

/-- Modelled from the spec: the storage collaborator's transactional scope
(`beginTransaction()/commit()/rollback()`, used by the source as
`with db.atomic()`). Its contract: when the body of the scope fails, the
scope rolls back and the caller-visible store is exactly the store from
before the call; when it succeeds, the new store is visible. -/
def storeAfter (store : Store) (r : Except String Store) : Store :=
  match r with
  | .ok s => s
  | .error _ => store

/-- Modelled from the spec: a storage backend that fails on one `create`
call — "simulated write failure" of §8 — injected into the
`_parse_accession2taxid` loop. `k` counts the `create` calls already made;
the `failAt`-th create raises instead of inserting. -/
def accFailLoop (failAt : Nat) (k : Nat) (store : Store) :
    List String → Except String Store
  | [] => .ok store
  | line :: rest => do
      let r ← parseAccLine line
      if k = failAt then .error "StorageError: simulated write failure"
      else accFailLoop failAt (k + 1) (insertAcc store r) rest

/-- `_parse_accession2taxid` run against the failing backend of
`accFailLoop`. -/
def loadAccessionsFail (failAt : Nat) (store : Store) (file : List String) :
    Except String Store :=
  match file with
  | [] => .ok store
  | _ :: dataLines => accFailLoop failAt 0 store dataLines

/-- The description of one accession data line used in the statements: column
0 and column 2 of the tab-split line, as `_parse_accession2taxid` extracts
them. -/
def accSpecRow (line : String) : AccRec :=
  { accession := (splitChar '\t' (rstripChar '\n' line)).getD 0 ""
    taxid := (splitChar '\t' (rstripChar '\n' line)).getD 2 "" }

/-- A node record is well formed when its three extracted fields are
non-empty. -/
def nodeWellFormed (r : NodeRec) : Prop :=
  r.ncbi_taxid ≠ "" ∧ r.parent_taxid ≠ "" ∧ r.lineage_level ≠ ""

instance (r : NodeRec) : Decidable (nodeWellFormed r) := by
  unfold nodeWellFormed; infer_instance

/-- A name record is well formed when its two extracted fields are
non-empty. -/
def nameWellFormed (r : NameRec) : Prop :=
  r.ncbi_taxid ≠ "" ∧ r.tax_name ≠ ""

instance (r : NameRec) : Decidable (nameWellFormed r) := by
  unfold nameWellFormed; infer_instance

/-- Default node record used with `List.getD` in positional statements. -/
def dNode : NodeRec :=
  { ncbi_taxid := "", parent_taxid := "", tax_name := "", lineage_level := "" }

/-- Default name record used with `List.getD` in positional statements. -/
def dName : NameRec := { ncbi_taxid := "", tax_name := "" }

/-- Default merged record used with `List.getD` in positional statements. -/
def dTaxa : TaxaRec := mergeTaxa dNode dName

/-! Concrete inputs used by the counterexamples and witnesses. -/

/-- The merged taxon of the spec's §8 example scenario. -/
def taxon9 : TaxaRec :=
  { ncbi_taxid := "9", parent_taxid := "1", tax_name := "Bacteria",
    lineage_level := "superkingdom" }

def c8NodeLine : String := "9\t|\t1\t|\tsuperkingdom\t|"

def c8NameLine : String := "9\t|\tBacteria\t|\tscientific name\t|"

/-- A node line carrying taxon id 1 (misalignment scenario). -/
def c1NodeLine : String := "1\t|\t7\t|\tgenus\t|"

/-- A name line carrying taxon id 2, pairable at position 0 with
`c1NodeLine` when the name file lacks a line for taxon 1. -/
def c1NameLine : String := "2\t|\tHomo\t|\tscientific name\t|"

def c1Node : NodeRec :=
  { ncbi_taxid := "1", parent_taxid := "7", tax_name := "",
    lineage_level := "genus" }

def c1Name : NameRec := { ncbi_taxid := "2", tax_name := "Homo" }

def wfNode : NodeRec :=
  { ncbi_taxid := "1", parent_taxid := "1", tax_name := "",
    lineage_level := "no rank" }

def wfName : NameRec := { ncbi_taxid := "1", tax_name := "root" }

/-- A node line with a single pipe-delimited field. -/
def badNodeLine : String := "9"

/-- An accession line with a single tab-separated column. -/
def badAccLine : String := "AB012345"

def c4Hdr : String := "accession\taccession.version\ttaxid\tgi"

def c4Line : String := "AB012345\tAB012345.1\t9\t123456"

/-- A store holding one accession row from an earlier, committed call. -/
def priorStore : Store :=
  { taxa := [], sequences := [{ accession := "X00001", taxid := "1" }] }

/-! ### Helper lemmas -/

theorem except_bind_error {α β : Type} (e : String) (f : α → Except String β) :
    (Except.error e >>= f : Except String β) = Except.error e := rfl

theorem except_bind_ok {α β : Type} (a : α) (f : α → Except String β) :
    (Except.ok a >>= f : Except String β) = f a := rfl

theorem mapExcept_error_of_mem {α β : Type} (f : α → Except String β)
    (l : List α) (x : α) (hx : x ∈ l) (e : String) (he : f x = .error e) :
    ∃ e2, mapExcept f l = .error e2 := by
  induction l with
  | nil => cases hx
  | cons a t ih =>
      rcases List.mem_cons.mp hx with h | h
      · subst h
        exact ⟨e, by simp [mapExcept, he, except_bind_error]⟩
      · cases hf : f a with
        | error e3 => exact ⟨e3, by simp [mapExcept, hf, except_bind_error]⟩
        | ok y =>
            obtain ⟨e2, h2⟩ := ih h
            exact ⟨e2, by simp [mapExcept, hf, h2, except_bind_ok,
              except_bind_error]⟩

theorem nodeFields_error (L : List String) (h : L.length < 3) :
    ∃ e, nodeFields L = .error e := by
  rcases L with _ | ⟨a, _ | ⟨b, _ | ⟨c, t⟩⟩⟩
  · exact ⟨_, rfl⟩
  · exact ⟨_, rfl⟩
  · exact ⟨_, rfl⟩
  · simp only [List.length_cons] at h; omega

theorem parseNodeLine_error_of_short (line : String)
    (h : (splitChar '|' line).length < 3) :
    ∃ e, parseNodeLine line = .error e :=
  nodeFields_error (splitChar '|' line) h

theorem accFields_error (L : List String) (h : L.length < 3) :
    ∃ e, accFields L = .error e := by
  rcases L with _ | ⟨a, _ | ⟨b, _ | ⟨c, t⟩⟩⟩
  · exact ⟨_, rfl⟩
  · exact ⟨_, rfl⟩
  · exact ⟨_, rfl⟩
  · simp only [List.length_cons] at h; omega

theorem parseAccLine_error_of_short (line : String)
    (h : (splitChar '\t' (rstripChar '\n' line)).length < 3) :
    ∃ e, parseAccLine line = .error e :=
  accFields_error (splitChar '\t' (rstripChar '\n' line)) h

theorem accFields_ok (L : List String) (h : 3 ≤ L.length) :
    accFields L = .ok { accession := L.getD 0 "", taxid := L.getD 2 "" } := by
  rcases L with _ | ⟨a, _ | ⟨b, _ | ⟨c, t⟩⟩⟩
  · simp only [List.length_nil] at h; omega
  · simp only [List.length_cons, List.length_nil] at h; omega
  · simp only [List.length_cons, List.length_nil] at h; omega
  · rfl

theorem parseAccLine_ok_of_long (line : String)
    (h : 3 ≤ (splitChar '\t' (rstripChar '\n' line)).length) :
    parseAccLine line = .ok (accSpecRow line) :=
  accFields_ok (splitChar '\t' (rstripChar '\n' line)) h

theorem accLoop_ok (ds : List String) :
    ∀ store : Store,
      (∀ l ∈ ds, 3 ≤ (splitChar '\t' (rstripChar '\n' l)).length) →
      accLoop store ds =
        .ok { store with sequences := store.sequences ++ ds.map accSpecRow } := by
  induction ds with
  | nil => intro store _; simp [accLoop]
  | cons d rest ih =>
      intro store h
      have hd := h d (List.mem_cons_self d rest)
      have hr := ih (insertAcc store (accSpecRow d))
        (fun l hl => h l (List.mem_cons_of_mem d hl))
      simp only [accLoop, parseAccLine_ok_of_long d hd, except_bind_ok]
      rw [hr]
      simp [insertAcc, List.append_assoc]

theorem accLoop_error_of_mem (ds : List String) :
    ∀ store : Store,
      (∃ l ∈ ds, (splitChar '\t' (rstripChar '\n' l)).length < 3) →
      ∃ e, accLoop store ds = .error e := by
  induction ds with
  | nil => rintro store ⟨l, hl, _⟩; cases hl
  | cons d rest ih =>
      rintro store ⟨l, hl, hshort⟩
      cases hp : parseAccLine d with
      | error e => exact ⟨e, by simp [accLoop, hp, except_bind_error]⟩
      | ok r =>
          rcases List.mem_cons.mp hl with h | h
          · subst h
            obtain ⟨e, he⟩ := parseAccLine_error_of_short l hshort
            rw [hp] at he; cases he
          · obtain ⟨e, he⟩ := ih (insertAcc store r) ⟨l, h, hshort⟩
            exact ⟨e, by simp [accLoop, hp, except_bind_ok, he]⟩

theorem accFailLoop_error (failAt : Nat) (ds : List String) :
    ∀ (k : Nat) (store : Store), k ≤ failAt → failAt - k < ds.length →
      ∃ e, accFailLoop failAt k store ds = .error e := by
  induction ds with
  | nil => intro k store _ h2; exact absurd h2 (Nat.not_lt_zero _)
  | cons d rest ih =>
      intro k store hk h2
      cases hp : parseAccLine d with
      | error e => exact ⟨e, by simp [accFailLoop, hp, except_bind_error]⟩
      | ok r =>
          by_cases hkf : k = failAt
          · exact ⟨"StorageError: simulated write failure",
              by simp [accFailLoop, hp, except_bind_ok, hkf]⟩
          · have h3 : k + 1 ≤ failAt := by omega
            have h4 : failAt - (k + 1) < rest.length := by
              simp only [List.length_cons] at h2; omega
            obtain ⟨e, he⟩ := ih (k + 1) (insertAcc store r) h3 h4
            exact ⟨e, by simp [accFailLoop, hp, except_bind_ok, hkf, he]⟩

theorem insertManyTaxa_ok (store : Store) (batch : List TaxaRec) :
    insertManyTaxa store batch =
      .ok { store with taxa := store.taxa ++ batch } := by
  simp [insertManyTaxa, ncbiTaxidAttrs]

theorem taxaSlices_flatten (l : List TaxaRec) : (taxaSlices l).flatten = l := by
  have H : ∀ (n : Nat) (l : List TaxaRec), l.length ≤ n →
      (taxaSlices l).flatten = l := by
    intro n
    induction n with
    | zero =>
        intro l hl
        have hnil : l = [] := List.eq_nil_of_length_eq_zero (Nat.le_zero.mp hl)
        subst hnil
        rw [taxaSlices]
        simp
    | succ n ih =>
        intro l hl
        by_cases h : l = []
        · subst h; rw [taxaSlices]; simp
        · rw [taxaSlices, dif_neg h]
          have hlen : (l.drop 500).length ≤ n := by
            have hp : 0 < l.length := List.length_pos.mpr h
            simp only [List.length_drop]
            omega
          rw [List.flatten_cons, ih (l.drop 500) hlen, List.take_append_drop]
  exact H l.length l (Nat.le_refl _)

theorem foldlM_insertManyTaxa (sl : List (List TaxaRec)) :
    ∀ store : Store,
      sl.foldlM insertManyTaxa store =
        .ok { store with taxa := store.taxa ++ sl.flatten } := by
  induction sl with
  | nil =>
      intro store
      simp only [List.foldlM, List.flatten_nil, List.append_nil]
      rfl
  | cons b bs ih =>
      intro store
      simp only [List.foldlM, insertManyTaxa_ok, except_bind_ok]
      rw [ih { store with taxa := store.taxa ++ b }]
      simp [List.append_assoc]

theorem storeAfter_ok (store s : Store) : storeAfter store (.ok s) = s := rfl

theorem storeAfter_error (store : Store) (e : String) :
    storeAfter store (.error e) = store := rfl

theorem loadTaxa_eq (store : Store) (l : List TaxaRec) :
    loadTaxa store l = .ok { store with taxa := store.taxa ++ l } := by
  unfold loadTaxa
  rw [foldlM_insertManyTaxa, taxaSlices_flatten]

theorem mergeLists_getD (nodes : List NodeRec) :
    ∀ (names : List NameRec) (i : Nat), i < nodes.length → i < names.length →
      (mergeLists nodes names).getD i dTaxa =
        mergeTaxa (nodes.getD i dNode) (names.getD i dName) := by
  induction nodes with
  | nil => intro names i h _; exact absurd h (Nat.not_lt_zero _)
  | cons n nt ih =>
      intro names i h1 h2
      cases names with
      | nil => exact absurd h2 (Nat.not_lt_zero _)
      | cons m mt =>
          cases i with
          | zero => rfl
          | succ j =>
              have hj1 : j < nt.length := Nat.lt_of_succ_lt_succ h1
              have hj2 : j < mt.length := Nat.lt_of_succ_lt_succ h2
              simpa [mergeLists] using ih mt j hj1 hj2

theorem mem_mergeLists (nodes : List NodeRec) :
    ∀ (names : List NameRec) (t : TaxaRec), t ∈ mergeLists nodes names →
      ∃ n ∈ nodes, ∃ m ∈ names, t = mergeTaxa n m := by
  induction nodes with
  | nil => intro names t ht; simp [mergeLists] at ht
  | cons n nt ih =>
      intro names t ht
      cases names with
      | nil => simp [mergeLists] at ht
      | cons m mt =>
          rcases List.mem_cons.mp ht with h | h
          · exact ⟨n, List.mem_cons_self n nt, m, List.mem_cons_self m mt, h⟩
          · obtain ⟨n2, hn2, m2, hm2, he⟩ := ih mt t h
            exact ⟨n2, List.mem_cons_of_mem n hn2, m2,
              List.mem_cons_of_mem m hm2, he⟩

theorem mergeLists_length (nodes : List NodeRec) :
    ∀ names : List NameRec,
      (mergeLists nodes names).length = min nodes.length names.length := by
  induction nodes with
  | nil => intro names; simp [mergeLists]
  | cons n nt ih =>
      intro names
      cases names with
      | nil => simp [mergeLists]
      | cons m mt =>
          have := ih mt
          simp only [mergeLists, List.zipWith, List.length_cons] at this ⊢
          omega

end Taxadb

namespace Taxadb

/-! ### Claim theorems -/

/-- C1 (counterexample): the claim says the merged record's `taxon_id`
(`ncbi_taxid`) equals the node record's value even when node and name records
at a position carry different taxon ids. On the node line for taxon 1 zipped
with the name line for taxon 2, the merged record's `ncbi_taxid` is `"2"` —
the name record's value — not the node record's `"1"`: in
`{**nodes, **names}` the key `ncbi_taxid` of the name dict also overwrites. -/
theorem c1_counterexample :
    ∃ (merged : TaxaRec) (node : NodeRec),
      parseNodes [c1NodeLine] = .ok [node] ∧
      parseTaxdumpRecords [c1NodeLine] [c1NameLine] = .ok [merged] ∧
      merged.ncbi_taxid ≠ node.ncbi_taxid ∧
      merged.ncbi_taxid = "2" ∧ node.ncbi_taxid = "1" :=
  ⟨{ ncbi_taxid := "2", parent_taxid := "7", tax_name := "Homo",
     lineage_level := "genus" }, c1Node, rfl, rfl, by decide, rfl, rfl⟩

/-- C1 (amended): for every pair of input record sequences and every merge
position, the name-file fields overwrite same-named node-file fields, and
the overlapping fields are `scientific_name` (`tax_name`) AND `taxon_id`
(`ncbi_taxid`): the merged record's `ncbi_taxid` and `tax_name` equal the
name record's values, while `parent_taxid` and `lineage_level` (rank) equal
the node record's values. When the pair is aligned (same taxon id) the
merged `ncbi_taxid` coincides with the node record's value too. -/
theorem c1_theorem (nodes : List NodeRec) (names : List NameRec) (i : Nat)
    (hn : i < nodes.length) (hm : i < names.length) :
    ((mergeLists nodes names).getD i dTaxa).ncbi_taxid =
      (names.getD i dName).ncbi_taxid ∧
    ((mergeLists nodes names).getD i dTaxa).tax_name =
      (names.getD i dName).tax_name ∧
    ((mergeLists nodes names).getD i dTaxa).parent_taxid =
      (nodes.getD i dNode).parent_taxid ∧
    ((mergeLists nodes names).getD i dTaxa).lineage_level =
      (nodes.getD i dNode).lineage_level := by
  rw [mergeLists_getD nodes names i hn hm]
  exact ⟨rfl, rfl, rfl, rfl⟩

/-- C1 witness: the amended statement applied at position 0 of the concrete
misaligned pair. -/
theorem c1_witness :
    (0 < [c1Node].length ∧ 0 < [c1Name].length) ∧
    (((mergeLists [c1Node] [c1Name]).getD 0 dTaxa).ncbi_taxid =
        ([c1Name].getD 0 dName).ncbi_taxid ∧
      ((mergeLists [c1Node] [c1Name]).getD 0 dTaxa).tax_name =
        ([c1Name].getD 0 dName).tax_name ∧
      ((mergeLists [c1Node] [c1Name]).getD 0 dTaxa).parent_taxid =
        ([c1Node].getD 0 dNode).parent_taxid ∧
      ((mergeLists [c1Node] [c1Name]).getD 0 dTaxa).lineage_level =
        ([c1Node].getD 0 dNode).lineage_level) :=
  ⟨⟨by decide, by decide⟩,
    c1_theorem [c1Node] [c1Name] 0 (by decide) (by decide)⟩

/-- C2: the merger output has length min(m, n) — hence at most min(m, n) —
and on well-formed inputs of equal length N it produces exactly N records,
each with non-empty `ncbi_taxid`, `parent_taxid` and `lineage_level`. -/
theorem c2_theorem (nodes : List NodeRec) (names : List NameRec) :
    (mergeLists nodes names).length = min nodes.length names.length ∧
    (nodes.length = names.length →
      (∀ r ∈ nodes, nodeWellFormed r) →
      (∀ r ∈ names, nameWellFormed r) →
      (mergeLists nodes names).length = names.length ∧
      ∀ t ∈ mergeLists nodes names,
        t.ncbi_taxid ≠ "" ∧ t.parent_taxid ≠ "" ∧ t.lineage_level ≠ "") := by
  refine ⟨mergeLists_length nodes names, fun heq hn hm => ⟨?_, ?_⟩⟩
  · rw [mergeLists_length nodes names, heq, Nat.min_self]
  · intro t ht
    obtain ⟨n, hn2, m, hm2, rfl⟩ := mem_mergeLists nodes names t ht
    obtain ⟨h1, h2, h3⟩ := hn n hn2
    obtain ⟨h4, h5⟩ := hm m hm2
    exact ⟨h4, h2, h3⟩

/-- C2 witness: the statement applied to one well-formed node/name pair. -/
theorem c2_witness :
    ([wfNode].length = [wfName].length ∧
      (∀ r ∈ [wfNode], nodeWellFormed r) ∧
      (∀ r ∈ [wfName], nameWellFormed r)) ∧
    ((mergeLists [wfNode] [wfName]).length = [wfName].length ∧
      ∀ t ∈ mergeLists [wfNode] [wfName],
        t.ncbi_taxid ≠ "" ∧ t.parent_taxid ≠ "" ∧ t.lineage_level ≠ "") :=
  ⟨⟨rfl, by decide, by decide⟩,
    (c2_theorem [wfNode] [wfName]).2 rfl (by decide) (by decide)⟩

/-- C3 (the code at the failing input): running the taxa load twice with the
same single record is not rejected — both calls succeed, because
`ncbi_taxid` has no uniqueness constraint (`ncbiTaxidAttrs.unique = false`)
— and the store then holds two Taxa rows with `ncbi_taxid = "9"`, violating
the claimed invariant. -/
theorem c3_theorem :
    ∃ s1 s2 : Store,
      loadTaxa emptyStore [taxon9] = .ok s1 ∧
      loadTaxa s1 [taxon9] = .ok s2 ∧
      s2.taxa.countP (fun r => r.ncbi_taxid == "9") = 2 ∧
      ¬ (s2.taxa.map (fun r => r.ncbi_taxid)).Nodup := by
  refine ⟨{ taxa := [taxon9], sequences := [] },
    { taxa := [taxon9, taxon9], sequences := [] }, ?_, ?_, by decide, by decide⟩
  · rw [loadTaxa_eq]; rfl
  · rw [loadTaxa_eq]; rfl

/-- C4: for a header line followed by N data lines each with at least three
tab-separated columns, `_parse_accession2taxid` produces exactly N Accession
records, none from the header, each taking `accession` from column 0 and
`taxid` from column 2 of its line. -/
theorem c4_theorem (store : Store) (hdr : String) (ds : List String)
    (h : ∀ l ∈ ds, 3 ≤ (splitChar '\t' (rstripChar '\n' l)).length) :
    loadAccessions store (hdr :: ds) =
      .ok { store with sequences := store.sequences ++ ds.map accSpecRow } ∧
    (storeAfter store (loadAccessions store (hdr :: ds))).sequences.length =
      store.sequences.length + ds.length := by
  have h1 : loadAccessions store (hdr :: ds) = accLoop store ds := rfl
  have h2 := accLoop_ok ds store h
  refine ⟨h1.trans h2, ?_⟩
  rw [h1, h2, storeAfter_ok]
  simp

/-- C4 witness: the spec's §8 accession example — header plus the line
`AB012345\tAB012345.1\t9\t123456`. -/
theorem c4_witness :
    (∀ l ∈ [c4Line], 3 ≤ (splitChar '\t' (rstripChar '\n' l)).length) ∧
    (loadAccessions emptyStore (c4Hdr :: [c4Line]) =
      .ok { emptyStore with
              sequences := emptyStore.sequences ++ [c4Line].map accSpecRow } ∧
      (storeAfter emptyStore
          (loadAccessions emptyStore (c4Hdr :: [c4Line]))).sequences.length =
        emptyStore.sequences.length + [c4Line].length) :=
  ⟨by decide, c4_theorem emptyStore c4Hdr [c4Line] (by decide)⟩

/-- C5: a node line with fewer than three pipe-delimited fields makes the
whole `_parse_taxdump` call fail with a raised error and leaves the store
unchanged (no Taxa rows inserted); a post-header accession line with fewer
than three tab-separated columns makes the `_parse_accession2taxid` call
fail with a raised error and leaves the store unchanged. -/
theorem c5_theorem (store : Store) :
    (∀ (nodeLines nameLines : List String) (l : String), l ∈ nodeLines →
      (splitChar '|' l).length < 3 →
      (∃ e, parseTaxdump store nodeLines nameLines = .error e) ∧
      storeAfter store (parseTaxdump store nodeLines nameLines) = store) ∧
    (∀ (hdr : String) (ds : List String) (l : String), l ∈ ds →
      (splitChar '\t' (rstripChar '\n' l)).length < 3 →
      (∃ e, loadAccessions store (hdr :: ds) = .error e) ∧
      storeAfter store (loadAccessions store (hdr :: ds)) = store) := by
  constructor
  · intro nodeLines nameLines l hl hshort
    obtain ⟨e, he⟩ := parseNodeLine_error_of_short l hshort
    obtain ⟨e2, he2⟩ :=
      mapExcept_error_of_mem parseNodeLine nodeLines l hl e he
    have hp : parseTaxdump store nodeLines nameLines = .error e2 := by
      unfold parseTaxdump parseTaxdumpRecords parseNodes
      rw [he2]
      rfl
    exact ⟨⟨e2, hp⟩, by rw [hp, storeAfter_error]⟩
  · intro hdr ds l hl hshort
    obtain ⟨e, he⟩ := accLoop_error_of_mem ds store ⟨l, hl, hshort⟩
    have hp : loadAccessions store (hdr :: ds) = .error e := he
    exact ⟨⟨e, hp⟩, by rw [hp, storeAfter_error]⟩

/-- C5 witness: a one-field node line and a one-column accession line. -/
theorem c5_witness :
    (badNodeLine ∈ [badNodeLine] ∧ (splitChar '|' badNodeLine).length < 3 ∧
      badAccLine ∈ [badAccLine] ∧
      (splitChar '\t' (rstripChar '\n' badAccLine)).length < 3) ∧
    ((∃ e, parseTaxdump emptyStore [badNodeLine] [] = .error e) ∧
      storeAfter emptyStore (parseTaxdump emptyStore [badNodeLine] []) =
        emptyStore) ∧
    ((∃ e, loadAccessions emptyStore ("hdr" :: [badAccLine]) = .error e) ∧
      storeAfter emptyStore (loadAccessions emptyStore ("hdr" :: [badAccLine])) =
        emptyStore) :=
  ⟨⟨by decide, by decide, by decide, by decide⟩,
    (c5_theorem emptyStore).1 [badNodeLine] [] badNodeLine (by decide)
      (by decide),
    (c5_theorem emptyStore).2 "hdr" [badAccLine] badAccLine (by decide)
      (by decide)⟩

/-- C6: the successive 500-element slices partition the input — their
concatenation is the input itself — so the batched insert loop stores each
of the K merged records exactly once; in particular loading 1,234 records
into an empty store yields exactly 1,234 stored rows. -/
theorem c6_theorem :
    (∀ (store : Store) (l : List TaxaRec),
      (taxaSlices l).flatten = l ∧
      loadTaxa store l = .ok { store with taxa := store.taxa ++ l } ∧
      (storeAfter store (loadTaxa store l)).taxa.length =
        store.taxa.length + l.length) ∧
    (storeAfter emptyStore
        (loadTaxa emptyStore (List.replicate 1234 taxon9))).taxa.length =
      1234 := by
  constructor
  · intro store l
    refine ⟨taxaSlices_flatten l, loadTaxa_eq store l, ?_⟩
    rw [loadTaxa_eq, storeAfter_ok]
    simp
  · rw [loadTaxa_eq, storeAfter_ok]
    show (emptyStore.taxa ++ List.replicate 1234 taxon9).length = 1234
    rw [show emptyStore.taxa = [] from rfl, List.nil_append,
      List.length_replicate]

/-- C7: if the storage backend fails on any create before the data lines run
out, the `_parse_accession2taxid` call raises and — by the transactional
scope's rollback — the caller-visible store is exactly the pre-call store:
zero rows from this call, rows from prior committed calls intact. -/
theorem c7_theorem (store : Store) (hdr : String) (ds : List String)
    (failAt : Nat) (h : failAt < ds.length) :
    (∃ e, loadAccessionsFail failAt store (hdr :: ds) = .error e) ∧
    storeAfter store (loadAccessionsFail failAt store (hdr :: ds)) = store ∧
    (storeAfter store (loadAccessionsFail failAt store (hdr :: ds))).sequences =
      store.sequences := by
  obtain ⟨e, he⟩ := accFailLoop_error failAt ds 0 store (Nat.zero_le _)
    (by simpa using h)
  have hp : loadAccessionsFail failAt store (hdr :: ds) = .error e := he
  exact ⟨⟨e, hp⟩, by rw [hp, storeAfter_error], by rw [hp, storeAfter_error]⟩

/-- C7 witness: a write failure on the second create, against a store that
already holds one row from a prior committed call. -/
theorem c7_witness :
    (1 < ([c4Line, c4Line] : List String).length) ∧
    ((∃ e, loadAccessionsFail 1 priorStore (c4Hdr :: [c4Line, c4Line]) =
        .error e) ∧
      storeAfter priorStore
          (loadAccessionsFail 1 priorStore (c4Hdr :: [c4Line, c4Line])) =
        priorStore ∧
      (storeAfter priorStore
          (loadAccessionsFail 1 priorStore
            (c4Hdr :: [c4Line, c4Line]))).sequences =
        priorStore.sequences) :=
  ⟨by decide, c7_theorem priorStore c4Hdr [c4Line, c4Line] 1 (by decide)⟩

/-- C8: the spec's §8 example scenario — the node line
`9\t|\t1\t|\tsuperkingdom\t|` and the name line
`9\t|\tBacteria\t|\tscientific name\t|` (retained: it contains
`scientific name`) merge into exactly Taxon{9, 1, superkingdom, Bacteria},
and the full `_parse_taxdump` stores exactly that row. -/
theorem c8_theorem :
    isScientificName c8NameLine = true ∧
    parseTaxdumpRecords [c8NodeLine] [c8NameLine] = .ok [taxon9] ∧
    parseTaxdump emptyStore [c8NodeLine] [c8NameLine] =
      .ok { taxa := [taxon9], sequences := [] } := by
  refine ⟨rfl, rfl, ?_⟩
  have h : parseTaxdump emptyStore [c8NodeLine] [c8NameLine] =
      loadTaxa emptyStore [taxon9] := rfl
  rw [h, loadTaxa_eq]
  rfl

/-- C10: on an accession file that is entirely empty, or holds only the
header line, `_parse_accession2taxid` completes successfully and leaves the
store unchanged. -/
theorem c10_theorem (store : Store) (hdr : String) :
    loadAccessions store [] = .ok store ∧
    loadAccessions store [hdr] = .ok store := ⟨rfl, rfl⟩

end Taxadb
